import Mathlib

/-!
Verification of the load-balancer reconciliation core of cloud-provider-onmetal
(pkg/cloudprovider/onmetal/load_balancer.go, constants.go).

The Go code is shallowly embedded: the control-plane object store
(controller-runtime client) is modelled as a pure association-list store whose
entries can also be marked as faulted (a Get on such an entry fails with a
non-NotFound error, a missing entry yields NotFound).  Stateful functions
thread the store explicitly and additionally record a trace of store events so
that temporal claims (deletion before re-creation, number of polls, absence of
reads/writes) can be stated.  The activation wait polls a sequence of store
snapshots `env : Nat → Store`, modelling the asynchronous population of
`status.ips` by the external controller.
-/

/-- Endpoint reference pair, commonv1alpha1.LocalUIDReference. -/
structure LocalUIDReference where
  name : String
  uid : String
deriving Repr, DecidableEq

/-- Service port, the (protocol, port) pair copied from the Service spec. -/
structure ServicePort where
  protocol : String
  port : Int
deriving Repr, DecidableEq

/-- The part of a corev1.Service read by the load-balancer provider:
identity, annotations, ports, ipFamilies and the previously reported
load-balancer ingress status (Status.LoadBalancer, as a list of IP strings). -/
structure Service where
  name : String
  svcNamespace : String
  uid : String
  annotations : List (String × String)
  ports : List ServicePort
  ipFamilies : List String
  statusIngress : List String
deriving Repr, DecidableEq

/-- A node, of which only Spec.ProviderID (and the name) is read. -/
structure Node where
  name : String
  providerID : String
deriving Repr, DecidableEq

/-- A machine network-interface attachment (computev1alpha1.NetworkInterface
inside MachineSpec): attachment name plus optional explicit
NetworkInterfaceRef.Name. -/
structure MachineNIC where
  name : String
  networkInterfaceRefName : Option String
deriving Repr, DecidableEq

/-- A compute Machine: name and declared network-interface attachments. -/
structure Machine where
  name : String
  networkInterfaces : List MachineNIC
deriving Repr, DecidableEq

/-- A networking NetworkInterface: name, UID and the referenced network. -/
structure NetworkInterface where
  name : String
  uid : String
  networkRefName : String
deriving Repr, DecidableEq

/-- A Network object: name and UID. -/
structure Network where
  name : String
  uid : String
deriving Repr, DecidableEq

/-- An IP source of an Internal load balancer: the ephemeral prefix template
(parentRef name of the configured prefix and the IP family). -/
structure IPSource where
  parentRefName : String
  ipFamily : String
deriving Repr, DecidableEq

/-- A load-balancer port (protocol, port). -/
structure LoadBalancerPort where
  protocol : String
  port : Int
deriving Repr, DecidableEq

/-- LoadBalancerSpec.  The Go LoadBalancerType is a string (its zero value ""
is distinct from "Public" and "Internal" and is what EnsureLoadBalancer
records when no load balancer existed before the reconcile), so the type
field is modelled as a String. -/
structure LoadBalancerSpec where
  lbType : String
  ipFamilies : List String
  networkRefName : String
  ports : List LoadBalancerPort
  ips : List IPSource
deriving Repr, DecidableEq

/-- A networking LoadBalancer object: name, annotations, spec and status.ips. -/
structure LoadBalancer where
  name : String
  annotations : List (String × String)
  spec : LoadBalancerSpec
  statusIPs : List String
deriving Repr, DecidableEq

/-- A LoadBalancerRouting object: same name as its LoadBalancer, the network
reference (name and UID), the destination list, the owner reference (the
owning LoadBalancer's name) and the mutable labels. -/
structure LoadBalancerRouting where
  name : String
  networkRef : LocalUIDReference
  destinations : List LocalUIDReference
  ownerName : String
  labels : List (String × String)
deriving Repr, DecidableEq

/-- A store entry: a present object, or a faulted entry on which Get fails
with a non-NotFound store error. -/
inductive Entry (α : Type) where
  | obj (v : α)
  | fault
deriving Repr, DecidableEq

/-- Outcome of a store Get: the object, NotFound, or another store error. -/
inductive GetOutcome (α : Type) where
  | ok (v : α)
  | notFound
  | fault
deriving Repr, DecidableEq

/-- Lookup in an association-list resource map: a missing key is NotFound, a
faulted entry is a non-NotFound error. -/
def getFrom {α : Type} (m : List (String × Entry α)) (name : String) : GetOutcome α :=
  match m.lookup name with
  | some (.obj v) => .ok v
  | some .fault => .fault
  | none => .notFound

/-- Replace the entry stored under a key (used by applies on existing keys). -/
def replaceEntry {α : Type} (m : List (String × Entry α)) (name : String) (e : Entry α) :
    List (String × Entry α) :=
  m.map (fun p => if p.1 = name then (name, e) else p)

/-- Remove the entry stored under a key (used by Delete). -/
def removeEntry {α : Type} (m : List (String × Entry α)) (name : String) :
    List (String × Entry α) :=
  m.filter (fun p => p.1 != name)

/-- The onmetal control-plane store (one namespace), holding the resource
kinds the load-balancer provider touches. -/
structure Store where
  loadBalancers : List (String × Entry LoadBalancer)
  machines : List (String × Entry Machine)
  networkInterfaces : List (String × Entry NetworkInterface)
  networks : List (String × Entry Network)
  routings : List (String × Entry LoadBalancerRouting)
deriving Repr

/-- Get a LoadBalancer by name. -/
def Store.getLB (s : Store) (name : String) : GetOutcome LoadBalancer :=
  getFrom s.loadBalancers name

/-- Get a Machine by name. -/
def Store.getMachine (s : Store) (name : String) : GetOutcome Machine :=
  getFrom s.machines name

/-- Get a NetworkInterface by name. -/
def Store.getNetworkInterface (s : Store) (name : String) : GetOutcome NetworkInterface :=
  getFrom s.networkInterfaces name

/-- Get a Network by name. -/
def Store.getNetwork (s : Store) (name : String) : GetOutcome Network :=
  getFrom s.networks name

/-- Get a LoadBalancerRouting by name. -/
def Store.getRouting (s : Store) (name : String) : GetOutcome LoadBalancerRouting :=
  getFrom s.routings name

/-- Error kinds: wrapped store/fetch errors, configuration errors, validation
errors, and wait timeouts (the distinct outcome of wait.Interrupted). -/
inductive Err where
  | fetch (msg : String)
  | config (msg : String)
  | validation (msg : String)
  | timeout (msg : String)
deriving Repr, DecidableEq

/-- Store events recorded by the embedded functions, used to state the
temporal claims (ordering of delete and apply, number of polls, absence of
store traffic). -/
inductive Event where
  | getLB (name : String)
  | deleteIssued (name : String)
  | pollDeleted (name : String) (gone : Bool)
  | applyLB (name : String) (lbType : String)
  | getNetwork (name : String)
  | applyRouting (name : String) (dests : List LocalUIDReference)
  | pollActive (name : String)
  | touchRouting (name : String)
  | getRoutingEv (name : String)
  | patchRouting (name : String) (dests : List LocalUIDReference)
deriving Repr, DecidableEq

/-- Annotation key for internal load balancers (constants.go). -/
def InternalLoadBalancerAnnotationKey : String :=
  "service.beta.kubernetes.io/onmetal-load-balancer-internal"

/-- LoadBalancerTypePublic. -/
def LoadBalancerTypePublic : String := "Public"

/-- LoadBalancerTypeInternal. -/
def LoadBalancerTypeInternal : String := "Internal"

/-- CloudConfig: the configured network name and (possibly empty) prefix name. -/
structure CloudConfig where
  networkName : String
  prefixName : String
deriving Repr, DecidableEq

/-- Desired load-balancer type of a service: Internal exactly when the
internal-load-balancer annotation is present with value "true"
(EnsureLoadBalancer, load_balancer.go). -/
def desiredLoadBalancerTypeFor (svc : Service) : String :=
  match svc.annotations.lookup InternalLoadBalancerAnnotationKey with
  | some v => if v = "true" then LoadBalancerTypeInternal else LoadBalancerTypePublic
  | none => LoadBalancerTypePublic

/-- First segment of splitting a UID on the character '-', i.e. the maximal
prefix free of '-'; this is strings.Split(uid, "-")[0]. -/
def firstUIDSegment (uid : String) : String :=
  String.mk (uid.data.takeWhile (fun c => c ≠ '-'))

/-- getLoadBalancerNameForService: clusterName-serviceName-firstUIDSegment. -/
def getLoadBalancerNameForService (clusterName : String) (svc : Service) : String :=
  clusterName ++ "-" ++ svc.name ++ "-" ++ firstUIDSegment svc.uid

/-- Suffix after the last '/' of a character list; empty when there is no '/'
or when '/' is the final character. -/
def afterLastSlash : List Char → List Char
  | [] => []
  | c :: rest => if c = '/' ∧ '/' ∉ rest then rest else afterLastSlash rest

/-- extractMachineNameFromProviderID: the substring after the last '/', or ""
when there is no '/' or the '/' is the final character. -/
def extractMachineNameFromProviderID (providerID : String) : String :=
  String.mk (afterLastSlash providerID.data)

/-- Concrete network-interface name of an attachment: the explicit
NetworkInterfaceRef.Name when present, else machineName-attachmentName. -/
def nicNameFor (machine : Machine) (mnic : MachineNIC) : String :=
  match mnic.networkInterfaceRefName with
  | some ref => ref
  | none => machine.name ++ "-" ++ mnic.name

/-- Inner loop of getNetworkInterfacesForNodes over a machine's declared
network-interface attachments: fetch each interface (any fetch failure,
NotFound included, aborts with a propagated error) and keep references whose
network matches the target network. -/
def collectMachineNICs (store : Store) (networkName : String) (machine : Machine) :
    List MachineNIC → Except Err (List LocalUIDReference)
  | [] => .ok []
  | mnic :: rest =>
    match store.getNetworkInterface (nicNameFor machine mnic) with
    | .ok nic =>
      match collectMachineNICs store networkName machine rest with
      | .ok tail =>
        if nic.networkRefName = networkName then
          .ok (⟨nic.name, nic.uid⟩ :: tail)
        else
          .ok tail
      | .error e => .error e
    | .notFound => .error (.fetch "failed to get network interface for machine")
    | .fault => .error (.fetch "failed to get network interface for machine")

/-- Per-node body of getNetworkInterfacesForNodes: derive the machine name
from the provider ID and fetch the machine.  A NotFound machine is ignored
(client.IgnoreNotFound): the zero machine has no attachments, so the node
contributes nothing; any other machine fetch error aborts. -/
def resolveNode (store : Store) (networkName : String) (node : Node) :
    Except Err (List LocalUIDReference) :=
  match store.getMachine (extractMachineNameFromProviderID node.providerID) with
  | .ok machine => collectMachineNICs store networkName machine machine.networkInterfaces
  | .notFound => .ok []
  | .fault => .error (.fetch "failed to get machine object for node")

/-- getNetworkInterfacesForNodes: accumulate, in node order, the endpoint
references of the nodes' machines' interfaces on the target network. -/
def getNetworkInterfacesForNodes (store : Store) (nodes : List Node) (networkName : String) :
    Except Err (List LocalUIDReference) :=
  match nodes with
  | [] => .ok []
  | node :: rest =>
    match resolveNode store networkName node with
    | .ok xs =>
      match getNetworkInterfacesForNodes store rest networkName with
      | .ok ys => .ok (xs ++ ys)
      | .error e => .error e
    | .error e => .error e

/-- Lexicographic comparison of character lists; on UTF-8 data this is the Go
byte-wise string order used by the sort.Slice less function. -/
def charListLE : List Char → List Char → Bool
  | [], _ => true
  | _ :: _, [] => false
  | a :: as, b :: bs =>
    if a < b then true
    else if b < a then false
    else charListLE as bs

/-- Go string order (less-or-equal) on Lean strings. -/
def strLE (a b : String) : Bool := charListLE a.data b.data

/-- Ordering used on destinations: ascending by UID. -/
def uidLE (a b : LocalUIDReference) : Prop := strLE a.uid b.uid = true

instance : DecidableRel uidLE := fun a b => by
  unfold uidLE; infer_instance

/-- Insertion step of the UID sort. -/
def insertByUID (x : LocalUIDReference) : List LocalUIDReference → List LocalUIDReference
  | [] => [x]
  | y :: ys => if strLE x.uid y.uid then x :: y :: ys else y :: insertByUID x ys

/-- Sort destinations ascending by UID (the sort.Slice call of
applyLoadBalancerRoutingForLoadBalancer, whose less function compares UIDs). -/
def sortByUID : List LocalUIDReference → List LocalUIDReference
  | [] => []
  | x :: xs => insertByUID x (sortByUID xs)

/-- Ports of the desired LoadBalancer spec, copied 1:1 from the service. -/
def lbPortsForService (svc : Service) : List LoadBalancerPort :=
  svc.ports.map (fun p => { protocol := p.protocol, port := p.port })

/-- Build the desired LoadBalancer object of EnsureLoadBalancer: annotations
from the service identity, spec from the request; for the Internal type an
ephemeral prefix source is attached and a missing configured prefix name is a
hard configuration error. -/
def buildLoadBalancer (cfg : CloudConfig) (clusterName : String) (svc : Service)
    (desiredType : String) (name : String) : Except Err LoadBalancer :=
  let base : LoadBalancer := {
    name := name
    annotations := [("cluster-name", clusterName), ("service-name", svc.name),
                    ("service-namespace", svc.svcNamespace), ("service-uid", svc.uid)]
    spec := {
      lbType := desiredType
      ipFamilies := svc.ipFamilies
      networkRefName := cfg.networkName
      ports := lbPortsForService svc
      ips := [] }
    statusIPs := [] }
  if desiredType = LoadBalancerTypeInternal then
    if cfg.prefixName = "" then
      .error (.config "prefixName is not defined in config")
    else
      .ok { base with spec := { base.spec with ips := [⟨cfg.prefixName, "IPv4"⟩] } }
  else
    .ok base

/-- Server-side apply of a LoadBalancer (force-owned): creates the object, or
overwrites the spec-level fields of an existing one while the status
subresource is untouched; applying over a faulted entry fails. -/
def Store.applyLoadBalancer (s : Store) (lb : LoadBalancer) : Except Err Store :=
  match s.getLB lb.name with
  | .ok old =>
    .ok { s with loadBalancers :=
      replaceEntry s.loadBalancers lb.name (.obj { lb with statusIPs := old.statusIPs }) }
  | .notFound =>
    .ok { s with loadBalancers := (lb.name, .obj lb) :: s.loadBalancers }
  | .fault => .error (.fetch "failed to apply LoadBalancer")

/-- Server-side apply of a LoadBalancerRouting (force-owned): labels written
by other actors are preserved, the applied fields always win. -/
def Store.applyRouting (s : Store) (r : LoadBalancerRouting) : Except Err Store :=
  match s.getRouting r.name with
  | .ok old =>
    .ok { s with routings := replaceEntry s.routings r.name (.obj { r with labels := old.labels }) }
  | .notFound =>
    .ok { s with routings := (r.name, .obj r) :: s.routings }
  | .fault => .error (.fetch "failed to apply LoadBalancerRouting")

/-- Update of an existing LoadBalancerRouting (client.Update / merge patch). -/
def Store.updateRouting (s : Store) (r : LoadBalancerRouting) : Except Err Store :=
  match s.getRouting r.name with
  | .ok _ => .ok { s with routings := replaceEntry s.routings r.name (.obj r) }
  | .notFound => .error (.fetch "failed to update LoadBalancerRouting")
  | .fault => .error (.fetch "failed to update LoadBalancerRouting")

/-- applyLoadBalancerRoutingForLoadBalancer: resolve the destinations for the
nodes, sort them ascending by UID, fetch the Network referenced by the load
balancer (any failure aborts), build the routing object carrying the
network's name and UID plus the owner reference, and apply it force-owned.
Returns the destination list that was applied. -/
def applyLoadBalancerRoutingForLoadBalancer (store : Store) (lb : LoadBalancer)
    (nodes : List Node) : Except Err (List LocalUIDReference) × Store × List Event :=
  match getNetworkInterfacesForNodes store nodes lb.spec.networkRefName with
  | .error e => (.error e, store, [])
  | .ok nics =>
    let dests := sortByUID nics
    match store.getNetwork lb.spec.networkRefName with
    | .ok nw =>
      let routing : LoadBalancerRouting := {
        name := lb.name
        networkRef := ⟨nw.name, nw.uid⟩
        destinations := dests
        ownerName := lb.name
        labels := [] }
      match store.applyRouting routing with
      | .ok store' =>
        (.ok dests, store', [.getNetwork lb.spec.networkRefName, .applyRouting lb.name dests])
      | .error e => (.error e, store, [.getNetwork lb.spec.networkRefName])
    | .notFound =>
      (.error (.fetch "failed to get Network"), store, [.getNetwork lb.spec.networkRefName])
    | .fault =>
      (.error (.fetch "failed to get Network"), store, [.getNetwork lb.spec.networkRefName])

/-- Backoff constant waitLoadbalancerInitDelay (1 second). -/
def waitLoadbalancerInitDelay : ℚ := 1

/-- Backoff constant waitLoadbalancerFactor (1.2). -/
def waitLoadbalancerFactor : ℚ := 6 / 5

/-- Backoff constant waitLoadbalancerActiveSteps (maximum condition runs). -/
def waitLoadbalancerActiveSteps : Nat := 19

/-- Delay before poll i of the exponential backoff: initial delay times
factor to the i-th power. -/
def backoffDelay (i : Nat) : ℚ :=
  waitLoadbalancerInitDelay * waitLoadbalancerFactor ^ i

/-- Decision of one activation-wait poll whose LoadBalancer fetch succeeded:
no IPs yet means not ready; with IPs present, completion is deferred (still
not ready, but the computed ingress is remembered) exactly when the fetched
spec type differs from the recorded pre-reconcile type and the freshly
computed ingress equals the service's previously reported status
(servicehelper.LoadBalancerStatusEqual); otherwise the poll is ready with the
computed ingress. -/
inductive PollDecision where
  | noIPs
  | deferred (ingress : List String)
  | ready (ingress : List String)
deriving Repr, DecidableEq

/-- Body of the wait.ExponentialBackoffWithContext condition of
waitLoadBalancerActive, for a successfully fetched LoadBalancer. -/
def activePollStep (existingLoadBalancerType : String) (serviceStatusIngress : List String)
    (lb : LoadBalancer) : PollDecision :=
  if lb.statusIPs = [] then
    .noIPs
  else if lb.spec.lbType ≠ existingLoadBalancerType ∧ serviceStatusIngress = lb.statusIPs then
    .deferred lb.statusIPs
  else
    .ready lb.statusIPs

/-- The bounded backoff loop of waitLoadBalancerActive.  Poll i fetches the
LoadBalancer from the i-th store snapshot.  Returns the accumulated ingress,
the poll events, and whether the step budget was exhausted (ErrWaitTimeout —
the only case wait.Interrupted recognises here; a condition error is not
interrupted, so the Go code falls through exactly like a ready poll). -/
def activeLoop (env : Nat → Store) (existingLoadBalancerType : String)
    (serviceStatusIngress : List String) (name : String) (acc : List String) (i : Nat) :
    Nat → List String × List Event × Bool
  | 0 => (acc, [], true)
  | Nat.succ fuel =>
    match (env i).getLB name with
    | .ok lb =>
      match activePollStep existingLoadBalancerType serviceStatusIngress lb with
      | .noIPs =>
        match activeLoop env existingLoadBalancerType serviceStatusIngress name acc (i + 1) fuel with
        | (a, evs, timedOut) => (a, .pollActive name :: evs, timedOut)
      | .deferred ingress =>
        match activeLoop env existingLoadBalancerType serviceStatusIngress name ingress (i + 1) fuel with
        | (a, evs, timedOut) => (a, .pollActive name :: evs, timedOut)
      | .ready ingress => (ingress, [.pollActive name], false)
    | .notFound => (acc, [.pollActive name], false)
    | .fault => (acc, [.pollActive name], false)

/-- Timestamp formatting of the routing touch: RFC3339 with ':' replaced by
'-' and a trailing 'Z' stripped. -/
def formatTimestamp (now : String) : String :=
  let s := now.replace ":" "-"
  if s.endsWith "Z" then s.dropRight 1 else s

/-- Set (or refresh) a label on a label list. -/
def setLabel (labels : List (String × String)) (k v : String) : List (String × String) :=
  match labels.lookup k with
  | some _ => labels.map (fun p => if p.1 = k then (k, v) else p)
  | none => labels ++ [(k, v)]

/-- waitLoadBalancerActive: run the bounded backoff loop; on exhaustion return
the distinct timeout error.  Otherwise perform the cache-refresh touch on the
routing object (get it, set the "updated" timestamp label, update it); a
touch failure is a hard error of the whole call. -/
def waitLoadBalancerActive (env : Nat → Store) (store : Store)
    (existingLoadBalancerType : String) (serviceStatusIngress : List String)
    (name : String) (now : String) : Except Err (List String) × Store × List Event :=
  match activeLoop env existingLoadBalancerType serviceStatusIngress name [] 0
      waitLoadbalancerActiveSteps with
  | (_, evs, true) =>
    (.error (.timeout "timeout waiting for the LoadBalancer to become ready"), store, evs)
  | (acc, evs, false) =>
    match store.getRouting name with
    | .ok r =>
      let touched := { r with labels := setLabel r.labels "updated" (formatTimestamp now) }
      match store.updateRouting touched with
      | .ok store' => (.ok acc, store', evs ++ [.touchRouting name])
      | .error e => (.error e, store, evs)
    | .notFound => (.error (.fetch "failed to get LoadBalancerRouting"), store, evs)
    | .fault => (.error (.fetch "failed to get LoadBalancerRouting"), store, evs)

/-- The bounded backoff loop of waitForDeletingLoadBalancer: done when the
fetch reports NotFound; a successful fetch is not done; any other fetch error
leaves the backoff uninterrupted, so the Go function returns nil. -/
def waitDeletedLoop (store : Store) (name : String) :
    Nat → Except Err Unit × List Event
  | 0 => (.error (.timeout "timeout waiting for the LoadBalancer to be deleted"), [])
  | Nat.succ fuel =>
    match store.getLB name with
    | .notFound => (.ok (), [.pollDeleted name true])
    | .ok _ =>
      match waitDeletedLoop store name fuel with
      | (r, evs) => (r, .pollDeleted name false :: evs)
    | .fault => (.ok (), [.pollDeleted name false])

/-- waitForDeletingLoadBalancer: poll with the shared backoff budget until the
LoadBalancer fetch reports NotFound. -/
def waitForDeletingLoadBalancer (store : Store) (name : String) :
    Except Err Unit × List Event :=
  waitDeletedLoop store name waitLoadbalancerActiveSteps

/-- EnsureLoadBalancerDeleted: issue deletion of the LoadBalancer by derived
name; a NotFound response is success without entering the deletion wait;
otherwise remove the object and wait for it to be gone. -/
def ensureLoadBalancerDeleted (store : Store) (clusterName : String) (svc : Service) :
    Except Err Unit × Store × List Event :=
  let name := getLoadBalancerNameForService clusterName svc
  match store.getLB name with
  | .notFound => (.ok (), store, [.deleteIssued name])
  | .fault => (.error (.fetch "failed to delete loadbalancer"), store, [.deleteIssued name])
  | .ok _ =>
    let store' := { store with loadBalancers := removeEntry store.loadBalancers name }
    match waitForDeletingLoadBalancer store' name with
    | (r, evs) => (r, store', .deleteIssued name :: evs)

/-- Build/apply/routing tail of the preparation phase of EnsureLoadBalancer,
run after the existing object has been inspected (and possibly deleted):
build the desired spec, apply it force-owned, then recompute and apply the
routing object.  existingType is the type recorded before the reconcile and
evs1 the events recorded so far. -/
def ensureApplyPhase (cfg : CloudConfig) (s1 : Store) (clusterName : String)
    (svc : Service) (nodes : List Node) (existingType : String) (evs1 : List Event) :
    Except Err (String × LoadBalancer) × Store × List Event :=
  match buildLoadBalancer cfg clusterName svc (desiredLoadBalancerTypeFor svc)
      (getLoadBalancerNameForService clusterName svc) with
  | .error e => (.error e, s1, evs1)
  | .ok lb =>
    match s1.applyLoadBalancer lb with
    | .error e => (.error e, s1, evs1)
    | .ok s2 =>
      match applyLoadBalancerRoutingForLoadBalancer s2 lb nodes with
      | (.ok _, s3, evr) =>
        (.ok (existingType, lb), s3,
          evs1 ++ (.applyLB (getLoadBalancerNameForService clusterName svc)
            (desiredLoadBalancerTypeFor svc) :: evr))
      | (.error e, s3, evr) =>
        (.error e, s3,
          evs1 ++ (.applyLB (getLoadBalancerNameForService clusterName svc)
            (desiredLoadBalancerTypeFor svc) :: evr))

/-- The part of EnsureLoadBalancer before the activation wait: decide the
desired type; fetch the existing object and record its type (the zero type ""
when the fetch does not succeed); on a type mismatch run the full deletion
path first; then the build/apply/routing tail.  Returns the recorded
pre-reconcile type and the applied LoadBalancer. -/
def ensurePrepare (cfg : CloudConfig) (store : Store) (clusterName : String)
    (svc : Service) (nodes : List Node) :
    Except Err (String × LoadBalancer) × Store × List Event :=
  let name := getLoadBalancerNameForService clusterName svc
  match store.getLB name with
  | .ok lb =>
    if lb.spec.lbType ≠ desiredLoadBalancerTypeFor svc then
      match ensureLoadBalancerDeleted store clusterName svc with
      | (.ok _, s, evs) =>
        ensureApplyPhase cfg s clusterName svc nodes lb.spec.lbType (.getLB name :: evs)
      | (.error e, s, evs) => (.error e, s, .getLB name :: evs)
    else
      ensureApplyPhase cfg store clusterName svc nodes lb.spec.lbType [.getLB name]
  | .notFound => ensureApplyPhase cfg store clusterName svc nodes "" [.getLB name]
  | .fault => ensureApplyPhase cfg store clusterName svc nodes "" [.getLB name]

/-- EnsureLoadBalancer: the preparation phase followed by the activation
wait; the ingress status is only produced by a successful wait. -/
def ensureLoadBalancer (cfg : CloudConfig) (store : Store) (clusterName : String)
    (svc : Service) (nodes : List Node) (env : Nat → Store) (now : String) :
    Except Err (List String) × Store × List Event :=
  match ensurePrepare cfg store clusterName svc nodes with
  | (.error e, s, evs) => (.error e, s, evs)
  | (.ok (existingType, lb), s, evs) =>
    match waitLoadBalancerActive env s existingType svc.statusIngress lb.name now with
    | (r, s', evw) => (r, s', evs ++ evw)

/-- UpdateLoadBalancer: an empty node list is a hard validation error before
any store access; otherwise fetch the LoadBalancer and its routing object,
recompute the destinations, and merge-patch the destinations field wholesale
with the recomputed (unsorted) list. -/
def updateLoadBalancer (store : Store) (clusterName : String) (svc : Service)
    (nodes : List Node) : Except Err Unit × Store × List Event :=
  if nodes = [] then
    (.error (.validation "no Nodes available for LoadBalancer Service"), store, [])
  else
    let name := getLoadBalancerNameForService clusterName svc
    match store.getLB name with
    | .ok lb =>
      match store.getRouting name with
      | .ok routing =>
        match getNetworkInterfacesForNodes store nodes lb.spec.networkRefName with
        | .ok nics =>
          match store.updateRouting { routing with destinations := nics } with
          | .ok store' =>
            (.ok (), store', [.getLB name, .getRoutingEv name, .patchRouting name nics])
          | .error e => (.error e, store, [.getLB name, .getRoutingEv name])
        | .error e => (.error e, store, [.getLB name, .getRoutingEv name])
      | .notFound => (.error (.fetch "failed to get LoadBalancerRouting"), store, [.getLB name])
      | .fault => (.error (.fetch "failed to get LoadBalancerRouting"), store, [.getLB name])
    | .notFound => (.error (.fetch "failed to get LoadBalancer"), store, [.getLB name])
    | .fault => (.error (.fetch "failed to get LoadBalancer"), store, [.getLB name])

/-- GetLoadBalancer: fetch by derived name; any fetch failure (NotFound
included) is returned as status nil, exists false and a wrapped non-nil
error; on success the ingress status is derived 1:1 from status.ips. -/
def getLoadBalancer (store : Store) (clusterName : String) (svc : Service) :
    Option (List String) × Bool × Option Err :=
  let name := getLoadBalancerNameForService clusterName svc
  match store.getLB name with
  | .ok lb => (some lb.statusIPs, true, none)
  | .notFound => (none, false, some (.fetch "failed to get LoadBalancer for Service"))
  | .fault => (none, false, some (.fetch "failed to get LoadBalancer for Service"))

/-! Order properties of the UID comparison and the destination sort. -/

theorem charListLE_total : ∀ as bs : List Char,
    charListLE as bs = true ∨ charListLE bs as = true
  | [], _ => Or.inl rfl
  | _ :: _, [] => Or.inr rfl
  | a :: as, b :: bs => by
    by_cases hab : a < b
    · left; simp [charListLE, hab]
    · by_cases hba : b < a
      · right; simp [charListLE, hba]
      · have hEq : a = b := le_antisymm (not_lt.mp hba) (not_lt.mp hab)
        subst hEq
        rcases charListLE_total as bs with h | h
        · left; simp [charListLE, lt_irrefl, h]
        · right; simp [charListLE, lt_irrefl, h]

theorem charListLE_trans : ∀ as bs cs : List Char,
    charListLE as bs = true → charListLE bs cs = true → charListLE as cs = true
  | [], _, _ => by intro _ _; rfl
  | _ :: _, [], _ => by intro h _; simp [charListLE] at h
  | _ :: _, _ :: _, [] => by intro _ h; simp [charListLE] at h
  | a :: as, b :: bs, c :: cs => by
    intro h1 h2
    by_cases hab : a < b
    · by_cases hbc : b < c
      · simp [charListLE, lt_trans hab hbc]
      · by_cases hcb : c < b
        · simp [charListLE, hbc, hcb] at h2
        · have : b = c := le_antisymm (not_lt.mp hcb) (not_lt.mp hbc)
          subst this
          simp [charListLE, hab]
    · by_cases hba : b < a
      · simp [charListLE, hab, hba] at h1
      · have : a = b := le_antisymm (not_lt.mp hba) (not_lt.mp hab)
        subst this
        simp only [charListLE, lt_irrefl, if_false] at h1
        by_cases hbc : a < c
        · simp [charListLE, hbc]
        · by_cases hcb : c < a
          · simp [charListLE, hbc, hcb] at h2
          · have : a = c := le_antisymm (not_lt.mp hcb) (not_lt.mp hbc)
            subst this
            simp only [charListLE, lt_irrefl, if_false] at h2 ⊢
            exact charListLE_trans as bs cs h1 h2

theorem uidLE_total (a b : LocalUIDReference) : uidLE a b ∨ uidLE b a :=
  charListLE_total a.uid.data b.uid.data

theorem uidLE_trans {a b c : LocalUIDReference} (h1 : uidLE a b) (h2 : uidLE b c) :
    uidLE a c :=
  charListLE_trans a.uid.data b.uid.data c.uid.data h1 h2

theorem insertByUID_perm (x : LocalUIDReference) :
    ∀ l, (insertByUID x l).Perm (x :: l)
  | [] => List.Perm.refl _
  | y :: ys => by
    unfold insertByUID
    by_cases h : strLE x.uid y.uid
    · simp [h]
    · simp only [h, if_neg, Bool.false_eq_true, not_false_iff]
      exact ((insertByUID_perm x ys).cons y).trans (List.Perm.swap x y ys)

theorem sortByUID_perm : ∀ l : List LocalUIDReference, (sortByUID l).Perm l
  | [] => List.Perm.refl _
  | x :: xs => (insertByUID_perm x (sortByUID xs)).trans ((sortByUID_perm xs).cons x)

theorem sorted_insertByUID (x : LocalUIDReference) :
    ∀ {l : List LocalUIDReference}, List.Sorted uidLE l →
      List.Sorted uidLE (insertByUID x l) := by
  intro l
  induction l with
  | nil => intro _; simp [insertByUID, List.Sorted]
  | cons y ys ih =>
    intro hs
    rw [List.sorted_cons] at hs
    unfold insertByUID
    by_cases h : strLE x.uid y.uid
    · simp only [h, if_pos]
      rw [List.sorted_cons]
      refine ⟨?_, List.sorted_cons.mpr hs⟩
      intro b hb
      rcases List.mem_cons.mp hb with hb | hb
      · rw [hb]; exact h
      · exact uidLE_trans h (hs.1 b hb)
    · simp only [h, Bool.false_eq_true, if_neg, not_false_iff]
      rw [List.sorted_cons]
      refine ⟨?_, ih hs.2⟩
      intro b hb
      rcases List.mem_cons.mp ((insertByUID_perm x ys).mem_iff.mp hb) with hb | hb
      · rcases uidLE_total y b with hyb | hby
        · exact hyb
        · exact absurd (hb ▸ hby) h
      · exact hs.1 b hb

theorem sorted_sortByUID : ∀ l : List LocalUIDReference,
    List.Sorted uidLE (sortByUID l)
  | [] => by simp [sortByUID, List.Sorted]
  | x :: xs => sorted_insertByUID x (sorted_sortByUID xs)

/-! Concrete fixtures used by witnesses and counterexamples. -/

/-- Example service (UID "u-1", no annotations). -/
def exSvc : Service :=
  { name := "s", svcNamespace := "ns", uid := "u-1", annotations := [], ports := [],
    ipFamilies := [], statusIngress := [] }

/-- Example service identical to exSvc except for its UID. -/
def exSvcU2 : Service := { exSvc with uid := "u-2" }

/-- Empty store. -/
def exStoreEmpty : Store := ⟨[], [], [], [], []⟩

/-- Example load balancer with a populated status IP. -/
def exLBPoll : LoadBalancer :=
  { name := "c-s-u", annotations := [],
    spec := { lbType := "Public", ipFamilies := [], networkRefName := "net", ports := [],
              ips := [] },
    statusIPs := ["10.0.0.1"] }

/-! Claim theorems. -/

/-- C5 (amended): the derived load-balancer name follows the documented
formula and re-derivation is deterministic, but it is not collision-resistant
for arbitrary distinct triples: for a fixed cluster name and service name,
two service UIDs produce the same name exactly when their first '-'-segments
agree. -/
theorem loadBalancerName_collision_characterization :
    ∀ (clusterName : String) (svc₁ svc₂ : Service), svc₁.name = svc₂.name →
      (getLoadBalancerNameForService clusterName svc₁ =
          getLoadBalancerNameForService clusterName svc₂ ↔
        firstUIDSegment svc₁.uid = firstUIDSegment svc₂.uid) := by
  intro c s1 s2 hname
  unfold getLoadBalancerNameForService
  rw [hname]
  constructor
  · intro h
    have hd := congrArg String.data h
    simp only [String.data_append] at hd
    exact String.ext (List.append_cancel_left hd)
  · intro h
    rw [h]

/-- Witness for the amended C5 statement at concrete inputs. -/
theorem loadBalancerName_collision_witness :
    firstUIDSegment exSvc.uid = firstUIDSegment exSvcU2.uid :=
  (loadBalancerName_collision_characterization "c" exSvc exSvcU2 rfl).mp rfl

/-- Counterexample to C5 as stated: the distinct triples ("c", "s", "u-1")
and ("c", "s", "u-2") derive the same load-balancer name "c-s-u". -/
theorem loadBalancerName_collision_counterexample :
    getLoadBalancerNameForService "c" exSvc = getLoadBalancerNameForService "c" exSvcU2 ∧
    exSvc.uid ≠ exSvcU2.uid :=
  ⟨rfl, by decide⟩

/-- C6: UpdateLoadBalancer with an empty node list returns a hard validation
error, leaves the store unchanged and records no store event at all. -/
theorem updateLoadBalancer_empty_nodes_rejected :
    ∀ (store : Store) (clusterName : String) (svc : Service),
      updateLoadBalancer store clusterName svc [] =
        (.error (.validation "no Nodes available for LoadBalancer Service"), store, []) := by
  intro store clusterName svc
  simp [updateLoadBalancer]

/-- C7: EnsureLoadBalancerDeleted on an absent load balancer succeeds: the
NotFound of the deletion is treated as already-satisfied, the store is
unchanged and no deletion-wait poll happens (the only event is the issued
delete). -/
theorem ensureLoadBalancerDeleted_absent_is_success :
    ∀ (store : Store) (clusterName : String) (svc : Service),
      store.getLB (getLoadBalancerNameForService clusterName svc) = .notFound →
      ensureLoadBalancerDeleted store clusterName svc =
        (.ok (), store, [.deleteIssued (getLoadBalancerNameForService clusterName svc)]) := by
  intro store clusterName svc h
  simp [ensureLoadBalancerDeleted, h]

/-- Witness for C7 on the empty store. -/
theorem ensureLoadBalancerDeleted_absent_witness :
    ensureLoadBalancerDeleted exStoreEmpty "c" exSvc =
      (.ok (), exStoreEmpty, [.deleteIssued "c-s-u"]) :=
  ensureLoadBalancerDeleted_absent_is_success exStoreEmpty "c" exSvc rfl

/-- C8: an activation poll that fetched a LoadBalancer with non-empty
status.ips defers completion exactly when the fetched spec type differs from
the recorded pre-reconcile type and the computed ingress equals the service's
previously reported status; otherwise it is ready with the computed ingress. -/
theorem activePoll_guard_characterization :
    ∀ (existingType : String) (serviceStatusIngress : List String) (lb : LoadBalancer),
      lb.statusIPs ≠ [] →
      (activePollStep existingType serviceStatusIngress lb = .deferred lb.statusIPs ↔
        (lb.spec.lbType ≠ existingType ∧ serviceStatusIngress = lb.statusIPs)) ∧
      (¬ (lb.spec.lbType ≠ existingType ∧ serviceStatusIngress = lb.statusIPs) →
        activePollStep existingType serviceStatusIngress lb = .ready lb.statusIPs) := by
  intro t s lb h
  by_cases hg : lb.spec.lbType ≠ t ∧ s = lb.statusIPs
  · simp [activePollStep, h, hg]
  · simp [activePollStep, h, hg]

/-- Witness for C8: with matching types the poll is ready. -/
theorem activePoll_guard_witness :
    activePollStep "Public" [] exLBPoll = .ready exLBPoll.statusIPs :=
  (activePoll_guard_characterization "Public" [] exLBPoll (by decide)).2 (by decide)

/-- C9: GetLoadBalancer on an absent load balancer returns nil status,
exists=false and a non-nil wrapped error; more generally a nil error is only
ever returned together with exists=true and a non-nil status. -/
theorem getLoadBalancer_absent_error :
    (∀ (store : Store) (clusterName : String) (svc : Service),
      store.getLB (getLoadBalancerNameForService clusterName svc) = .notFound →
      getLoadBalancer store clusterName svc =
        (none, false, some (.fetch "failed to get LoadBalancer for Service"))) ∧
    (∀ (store : Store) (clusterName : String) (svc : Service),
      (getLoadBalancer store clusterName svc).2.2 = none →
      (getLoadBalancer store clusterName svc).2.1 = true ∧
      (getLoadBalancer store clusterName svc).1 ≠ none) := by
  constructor
  · intro store clusterName svc h
    simp [getLoadBalancer, h]
  · intro store clusterName svc
    cases hg : store.getLB (getLoadBalancerNameForService clusterName svc) with
    | ok lb => simp [getLoadBalancer, hg]
    | notFound => simp [getLoadBalancer, hg]
    | fault => simp [getLoadBalancer, hg]

/-- Witness for C9 on the empty store. -/
theorem getLoadBalancer_absent_witness :
    getLoadBalancer exStoreEmpty "c" exSvc =
      (none, false, some (.fetch "failed to get LoadBalancer for Service")) :=
  getLoadBalancer_absent_error.1 exStoreEmpty "c" exSvc rfl

/-! Characterization lemmas for destination resolution. -/

/-- The inner interface loop succeeds exactly when every declared attachment's
interface fetch succeeds. -/
theorem collectMachineNICs_ok_iff (store : Store) (networkName : String) (machine : Machine) :
    ∀ l : List MachineNIC,
      (∃ xs, collectMachineNICs store networkName machine l = .ok xs) ↔
      (∀ mnic ∈ l, ∃ nic, store.getNetworkInterface (nicNameFor machine mnic) = .ok nic)
  | [] => by simp [collectMachineNICs]
  | mnic :: rest => by
    cases hg : store.getNetworkInterface (nicNameFor machine mnic) with
    | ok nic =>
      cases hr : collectMachineNICs store networkName machine rest with
      | ok tail =>
        constructor
        · intro _ m hm
          rcases List.mem_cons.mp hm with hm | hm
          · exact ⟨nic, hm ▸ hg⟩
          · exact (collectMachineNICs_ok_iff store networkName machine rest).mp ⟨tail, hr⟩ m hm
        · intro _
          by_cases hmatch : nic.networkRefName = networkName
          · exact ⟨⟨nic.name, nic.uid⟩ :: tail,
              by simp [collectMachineNICs, hg, hr, hmatch]⟩
          · exact ⟨tail, by simp [collectMachineNICs, hg, hr, hmatch]⟩
      | error e =>
        constructor
        · intro hex
          rcases hex with ⟨xs, hxs⟩
          simp [collectMachineNICs, hg, hr] at hxs
        · intro hall
          exfalso
          rcases (collectMachineNICs_ok_iff store networkName machine rest).mpr
            (fun m hm => hall m (List.mem_cons_of_mem _ hm)) with ⟨tail, htail⟩
          rw [htail] at hr
          cases hr
    | notFound =>
      constructor
      · intro hex
        rcases hex with ⟨xs, hxs⟩
        simp [collectMachineNICs, hg] at hxs
      · intro hall
        rcases hall mnic (List.mem_cons_self _ _) with ⟨nic, hnic⟩
        rw [hnic] at hg
        cases hg
    | fault =>
      constructor
      · intro hex
        rcases hex with ⟨xs, hxs⟩
        simp [collectMachineNICs, hg] at hxs
      · intro hall
        rcases hall mnic (List.mem_cons_self _ _) with ⟨nic, hnic⟩
        rw [hnic] at hg
        cases hg

/-- C3: during destination resolution a NotFound machine (including the
empty machine name derived from a separator-free provider ID, absent from
any well-formed store) contributes nothing and resolution continues, a
non-NotFound machine fetch error aborts resolution, and any failure to fetch
a declared network interface (NotFound included) aborts resolution with a
propagated error, returning no destination set. -/
theorem destinationResolution_error_handling :
    (∀ (store : Store) (networkName : String) (node : Node) (rest : List Node),
      store.getMachine (extractMachineNameFromProviderID node.providerID) = .notFound →
      getNetworkInterfacesForNodes store (node :: rest) networkName =
        getNetworkInterfacesForNodes store rest networkName) ∧
    (∀ (store : Store) (networkName : String) (node : Node) (rest : List Node),
      extractMachineNameFromProviderID node.providerID = "" →
      store.getMachine "" = .notFound →
      getNetworkInterfacesForNodes store (node :: rest) networkName =
        getNetworkInterfacesForNodes store rest networkName) ∧
    (∀ (store : Store) (networkName : String) (node : Node) (rest : List Node),
      store.getMachine (extractMachineNameFromProviderID node.providerID) = .fault →
      ∃ e, getNetworkInterfacesForNodes store (node :: rest) networkName = .error e) ∧
    (∀ (store : Store) (networkName : String) (node : Node) (rest : List Node)
        (machine : Machine) (mnic : MachineNIC),
      store.getMachine (extractMachineNameFromProviderID node.providerID) = .ok machine →
      mnic ∈ machine.networkInterfaces →
      (∀ nic, store.getNetworkInterface (nicNameFor machine mnic) ≠ .ok nic) →
      ∃ e, getNetworkInterfacesForNodes store (node :: rest) networkName = .error e) := by
  refine ⟨?_, ?_, ?_, ?_⟩
  · intro store net node rest h
    cases hr : getNetworkInterfacesForNodes store rest net with
    | ok ys => simp [getNetworkInterfacesForNodes, resolveNode, h, hr]
    | error e => simp [getNetworkInterfacesForNodes, resolveNode, h, hr]
  · intro store net node rest h1 h2
    have h : store.getMachine (extractMachineNameFromProviderID node.providerID) = .notFound :=
      h1 ▸ h2
    cases hr : getNetworkInterfacesForNodes store rest net with
    | ok ys => simp [getNetworkInterfacesForNodes, resolveNode, h, hr]
    | error e => simp [getNetworkInterfacesForNodes, resolveNode, h, hr]
  · intro store net node rest h
    exact ⟨.fetch "failed to get machine object for node",
      by simp [getNetworkInterfacesForNodes, resolveNode, h]⟩
  · intro store net node rest machine mnic hm hmem hne
    have hnall : ¬ ∃ xs,
        collectMachineNICs store net machine machine.networkInterfaces = .ok xs := by
      intro hex
      rcases (collectMachineNICs_ok_iff store net machine machine.networkInterfaces).mp
        hex mnic hmem with ⟨nic, hnic⟩
      exact hne nic hnic
    cases hc : collectMachineNICs store net machine machine.networkInterfaces with
    | ok xs => exact absurd ⟨xs, hc⟩ hnall
    | error e =>
      exact ⟨e, by simp [getNetworkInterfacesForNodes, resolveNode, hm, hc]⟩

/-- Machine attachment fixture referencing the (absent) interface "nic1". -/
def exMNIC : MachineNIC := { name := "a", networkInterfaceRefName := some "nic1" }

/-- Machine fixture with one attachment. -/
def exMachineM1 : Machine := { name := "m1", networkInterfaces := [exMNIC] }

/-- Store fixture for the C3 witness: machine m1 present (its interface is
not), machine mf faulted, machine mx absent. -/
def exStoreC3 : Store :=
  { loadBalancers := [], machines := [("m1", .obj exMachineM1), ("mf", .fault)],
    networkInterfaces := [], networks := [], routings := [] }

/-- Node whose provider ID names an absent machine. -/
def exNodeAbsent : Node := { name := "nx", providerID := "onmetal://ns/mx" }

/-- Node whose provider ID has no separator. -/
def exNodeNoSlash : Node := { name := "nb", providerID := "bare" }

/-- Node whose provider ID names a faulted machine entry. -/
def exNodeFault : Node := { name := "nf", providerID := "onmetal://ns/mf" }

/-- Node whose provider ID names machine m1. -/
def exNodeM1 : Node := { name := "n1", providerID := "onmetal://ns/m1" }

/-- Witness for C3 on the fixture store. -/
theorem destinationResolution_error_handling_witness :
    (getNetworkInterfacesForNodes exStoreC3 [exNodeAbsent] "net" =
      getNetworkInterfacesForNodes exStoreC3 [] "net") ∧
    (getNetworkInterfacesForNodes exStoreC3 [exNodeNoSlash] "net" =
      getNetworkInterfacesForNodes exStoreC3 [] "net") ∧
    (∃ e, getNetworkInterfacesForNodes exStoreC3 [exNodeFault] "net" = .error e) ∧
    (∃ e, getNetworkInterfacesForNodes exStoreC3 [exNodeM1] "net" = .error e) := by
  refine ⟨?_, ?_, ?_, ?_⟩
  · exact destinationResolution_error_handling.1 exStoreC3 "net" exNodeAbsent [] rfl
  · exact destinationResolution_error_handling.2.1 exStoreC3 "net" exNodeNoSlash [] rfl rfl
  · exact destinationResolution_error_handling.2.2.1 exStoreC3 "net" exNodeFault [] rfl
  · refine destinationResolution_error_handling.2.2.2 exStoreC3 "net" exNodeM1 []
      exMachineM1 exMNIC rfl (by simp [exMachineM1]) ?_
    intro nic h
    simp [Store.getNetworkInterface, getFrom, exStoreC3, exMNIC, nicNameFor] at h

/-! Permutation invariance of destination resolution, and store lookup
lemmas for the applied routing objects. -/

/-- Endpoints contributed by a node when its resolution succeeds (default []
on failure); only used to state the success value of the resolver. -/
def resolveNodeD (store : Store) (networkName : String) (node : Node) :
    List LocalUIDReference :=
  match resolveNode store networkName node with
  | .ok xs => xs
  | .error _ => []

/-- A node whose resolution succeeds. -/
def nodeResolvable (store : Store) (networkName : String) (node : Node) : Prop :=
  ∃ xs, resolveNode store networkName node = .ok xs

theorem getNetworkInterfacesForNodes_ok_of_all (store : Store) (net : String) :
    ∀ l : List Node, (∀ n ∈ l, nodeResolvable store net n) →
      getNetworkInterfacesForNodes store l net = .ok (l.flatMap (resolveNodeD store net))
  | [] => by intro _; simp [getNetworkInterfacesForNodes]
  | n :: rest => by
    intro h
    rcases h n (List.mem_cons_self _ _) with ⟨xs, hxs⟩
    have hrest := getNetworkInterfacesForNodes_ok_of_all store net rest
      (fun m hm => h m (List.mem_cons_of_mem _ hm))
    simp [getNetworkInterfacesForNodes, hxs, hrest, resolveNodeD]

theorem getNetworkInterfacesForNodes_all_of_ok (store : Store) (net : String) :
    ∀ (l : List Node) (xs : List LocalUIDReference),
      getNetworkInterfacesForNodes store l net = .ok xs →
      ∀ n ∈ l, nodeResolvable store net n := by
  intro l
  induction l with
  | nil => intro xs _ n hn; cases hn
  | cons m rest ih =>
    intro xs hok n hn
    cases hrn : resolveNode store net m with
    | error e => simp [getNetworkInterfacesForNodes, hrn] at hok
    | ok ys =>
      cases hrr : getNetworkInterfacesForNodes store rest net with
      | error e => simp [getNetworkInterfacesForNodes, hrn, hrr] at hok
      | ok zs =>
        rcases List.mem_cons.mp hn with hn | hn
        · exact ⟨ys, hn ▸ hrn⟩
        · exact ih zs hrr n hn

theorem getFrom_lookup_some {α : Type} {m : List (String × Entry α)} {name : String} {v : α}
    (h : getFrom m name = .ok v) : m.lookup name = some (.obj v) := by
  unfold getFrom at h
  split at h
  · next w heq =>
    injection h with h2
    subst h2
    exact heq
  · next heq => cases h
  · next heq => cases h

theorem lookup_replaceEntry {α : Type} :
    ∀ (m : List (String × Entry α)) (name : String) (e : Entry α),
      (m.lookup name).isSome → (replaceEntry m name e).lookup name = some e
  | [], _, _ => by simp [List.lookup]
  | (k, v) :: rest, name, e => by
    intro h
    by_cases hk : k = name
    · subst hk
      have hstep : replaceEntry ((k, v) :: rest) k e = (k, e) :: replaceEntry rest k e := by
        simp [replaceEntry]
      rw [hstep]
      simp [List.lookup]
    · have hne : (name == k) = false := by
        rw [beq_eq_false_iff_ne]
        exact fun hEq => hk hEq.symm
      have hh : (rest.lookup name).isSome := by
        simpa [List.lookup, hne] using h
      have hrec := lookup_replaceEntry rest name e hh
      simp only [replaceEntry, List.map_cons]
      rw [if_neg hk]
      simpa [List.lookup, hne, replaceEntry] using hrec

theorem getRouting_applyRouting (s : Store) (r : LoadBalancerRouting) (s' : Store)
    (h : s.applyRouting r = .ok s') :
    ∃ lbls, s'.getRouting r.name = .ok { r with labels := lbls } := by
  unfold Store.applyRouting at h
  split at h
  · next old heq =>
    injection h with h2
    subst h2
    refine ⟨old.labels, ?_⟩
    have hsome : (s.routings.lookup r.name).isSome := by
      rw [getFrom_lookup_some heq]; rfl
    simp [Store.getRouting, getFrom, lookup_replaceEntry _ _ _ hsome]
  · injection h with h2
    subst h2
    exact ⟨r.labels, by simp [Store.getRouting, getFrom, List.lookup]⟩
  · cases h

theorem getRouting_updateRouting (s : Store) (r : LoadBalancerRouting) (s' : Store)
    (h : s.updateRouting r = .ok s') : s'.getRouting r.name = .ok r := by
  unfold Store.updateRouting at h
  split at h
  · next old heq =>
    injection h with h2
    subst h2
    have hsome : (s.routings.lookup r.name).isSome := by
      rw [getFrom_lookup_some heq]; rfl
    simp [Store.getRouting, getFrom, lookup_replaceEntry _ _ _ hsome]
  · cases h
  · cases h

/-- C2 (amended): the destination list applied by the ensure path
(applyLoadBalancerRoutingForLoadBalancer) is sorted ascending by endpoint UID
and is exactly what is stored in the routing object; the resolver output is
permutation-invariant as a multiset of endpoints; the update path
(UpdateLoadBalancer) stores the resolver output wholesale, in node-traversal
order, without sorting.  (Neither path deduplicates.) -/
theorem routingDestinations_order_properties :
    (∀ (store : Store) (lb : LoadBalancer) (nodes : List Node)
        (dests : List LocalUIDReference) (st : Store) (evs : List Event),
      applyLoadBalancerRoutingForLoadBalancer store lb nodes = (.ok dests, st, evs) →
      List.Sorted uidLE dests ∧
      ∃ r, st.getRouting lb.name = .ok r ∧ r.destinations = dests) ∧
    (∀ (store : Store) (networkName : String) (l l' : List Node)
        (xs : List LocalUIDReference),
      l.Perm l' → getNetworkInterfacesForNodes store l networkName = .ok xs →
      ∃ xs', getNetworkInterfacesForNodes store l' networkName = .ok xs' ∧ xs.Perm xs') ∧
    (∀ (store : Store) (clusterName : String) (svc : Service) (nodes : List Node)
        (st : Store) (evs : List Event),
      updateLoadBalancer store clusterName svc nodes = (.ok (), st, evs) →
      ∃ lb r nics,
        store.getLB (getLoadBalancerNameForService clusterName svc) = .ok lb ∧
        store.getRouting (getLoadBalancerNameForService clusterName svc) = .ok r ∧
        getNetworkInterfacesForNodes store nodes lb.spec.networkRefName = .ok nics ∧
        st.getRouting r.name = .ok { r with destinations := nics }) := by
  refine ⟨?_, ?_, ?_⟩
  · intro store lb nodes dests st evs h
    unfold applyLoadBalancerRoutingForLoadBalancer at h
    split at h
    · simp at h
    · next nics heq =>
      dsimp only at h
      split at h
      · next nw heqnw =>
        split at h
        · next store2 happly =>
          simp only [Prod.mk.injEq, Except.ok.injEq] at h
          obtain ⟨h1, h2, _⟩ := h
          constructor
          · rw [← h1]
            exact sorted_sortByUID nics
          · rcases getRouting_applyRouting _ _ _ happly with ⟨lbls, hst⟩
            exact ⟨_, h2 ▸ hst, h1⟩
        · simp at h
      · simp at h
      · simp at h
  · intro store networkName l l' xs hp hok
    have hall : ∀ n ∈ l, nodeResolvable store networkName n :=
      getNetworkInterfacesForNodes_all_of_ok store networkName l xs hok
    have hall' : ∀ n ∈ l', nodeResolvable store networkName n :=
      fun n hn => hall n (hp.mem_iff.mpr hn)
    have h1 := getNetworkInterfacesForNodes_ok_of_all store networkName l hall
    have h2 := getNetworkInterfacesForNodes_ok_of_all store networkName l' hall'
    rw [hok] at h1
    injection h1 with h1
    refine ⟨_, h2, ?_⟩
    rw [h1]
    exact List.Perm.flatMap_right (resolveNodeD store networkName) hp
  · intro store clusterName svc nodes st evs h
    unfold updateLoadBalancer at h
    split at h
    · simp at h
    · dsimp only at h
      split at h
      · next lb heqlb =>
        split at h
        · next r heqr =>
          split at h
          · next nics heqn =>
            split at h
            · next store2 hupd =>
              simp only [Prod.mk.injEq] at h
              obtain ⟨_, h2, _⟩ := h
              refine ⟨lb, r, nics, heqlb, heqr, heqn, ?_⟩
              have := getRouting_updateRouting _ _ _ hupd
              exact h2 ▸ this
            · simp at h
          · simp at h
        · simp at h
        · simp at h
      · simp at h
      · simp at h

/-- Network interface fixtures on network "net" with UIDs "a" and "b". -/
def exNicA : NetworkInterface := { name := "nicA", uid := "a", networkRefName := "net" }

/-- Second interface fixture. -/
def exNicB : NetworkInterface := { name := "nicB", uid := "b", networkRefName := "net" }

/-- Machine whose attachment references exNicB. -/
def exMachineU1 : Machine :=
  { name := "mu1", networkInterfaces := [{ name := "p", networkInterfaceRefName := some "nicB" }] }

/-- Machine whose attachment references exNicA. -/
def exMachineU2 : Machine :=
  { name := "mu2", networkInterfaces := [{ name := "p", networkInterfaceRefName := some "nicA" }] }

/-- Routing fixture with empty destinations. -/
def exRoutingC2 : LoadBalancerRouting :=
  { name := "c-s-u", networkRef := ⟨"net", "nuid"⟩, destinations := [],
    ownerName := "c-s-u", labels := [] }

/-- Load balancer fixture on network "net". -/
def exLBC2 : LoadBalancer :=
  { name := "c-s-u", annotations := [],
    spec := { lbType := "Public", ipFamilies := [], networkRefName := "net", ports := [],
              ips := [] },
    statusIPs := [] }

/-- Store fixture for C2: two machines with one matching interface each. -/
def exStoreC2 : Store :=
  { loadBalancers := [("c-s-u", .obj exLBC2)],
    machines := [("mu1", .obj exMachineU1), ("mu2", .obj exMachineU2)],
    networkInterfaces := [("nicA", .obj exNicA), ("nicB", .obj exNicB)],
    networks := [("net", .obj ⟨"net", "nuid"⟩)],
    routings := [("c-s-u", .obj exRoutingC2)] }

/-- Node backed by exMachineU1. -/
def exNodeU1 : Node := { name := "nu1", providerID := "onmetal://ns/mu1" }

/-- Node backed by exMachineU2. -/
def exNodeU2 : Node := { name := "nu2", providerID := "onmetal://ns/mu2" }

/-- Witness for the amended C2 statement: resolver output on a two-node list
and on its swap are permutations of one another. -/
theorem routingDestinations_order_witness :
    ∃ xs', getNetworkInterfacesForNodes exStoreC2 [exNodeU2, exNodeU1] "net" = .ok xs' ∧
      List.Perm [(⟨"nicB", "b"⟩ : LocalUIDReference), ⟨"nicA", "a"⟩] xs' :=
  routingDestinations_order_properties.2.1 exStoreC2 "net" [exNodeU1, exNodeU2]
    [exNodeU2, exNodeU1] [⟨"nicB", "b"⟩, ⟨"nicA", "a"⟩]
    (List.Perm.swap exNodeU2 exNodeU1 []) rfl

/-- Counterexample to C2 as stated: with the node list [u1, u2, u1] the
update path stores the unsorted destination list [b, a, b], and the ensure
path computes the sorted but duplicated list [a, b, b]. -/
theorem routingDestinations_order_counterexample :
    ((updateLoadBalancer exStoreC2 "c" exSvc [exNodeU1, exNodeU2, exNodeU1]).2.1.getRouting
        "c-s-u" =
      .ok { exRoutingC2 with
            destinations := [⟨"nicB", "b"⟩, ⟨"nicA", "a"⟩, ⟨"nicB", "b"⟩] }) ∧
    ¬ List.Sorted uidLE [(⟨"nicB", "b"⟩ : LocalUIDReference), ⟨"nicA", "a"⟩, ⟨"nicB", "b"⟩] ∧
    ((applyLoadBalancerRoutingForLoadBalancer exStoreC2 exLBC2
        [exNodeU1, exNodeU2, exNodeU1]).1 =
      .ok [⟨"nicA", "a"⟩, ⟨"nicB", "b"⟩, ⟨"nicB", "b"⟩]) ∧
    ¬ List.Nodup [(⟨"nicA", "a"⟩ : LocalUIDReference), ⟨"nicB", "b"⟩, ⟨"nicB", "b"⟩] := by
  refine ⟨?_, ?_, ?_, ?_⟩
  · rfl
  · decide
  · rfl
  · decide

/-! Bounded-wait lemmas for the activation loop. -/

theorem activeLoop_all_pending (env : Nat → Store) (t : String) (s : List String)
    (name : String) (h : ∀ j, ∃ lb, (env j).getLB name = .ok lb ∧ lb.statusIPs = []) :
    ∀ (fuel : Nat) (acc : List String) (i : Nat),
      activeLoop env t s name acc i fuel =
        (acc, List.replicate fuel (.pollActive name), true)
  | 0, acc, i => rfl
  | Nat.succ fuel, acc, i => by
    rcases h i with ⟨lb, hlb, hips⟩
    have hrec := activeLoop_all_pending env t s name h fuel acc (i + 1)
    simp [activeLoop, hlb, activePollStep, hips, hrec, List.replicate_succ]

theorem activeLoop_trace_length (env : Nat → Store) (t : String) (s : List String)
    (name : String) :
    ∀ (fuel : Nat) (acc : List String) (i : Nat),
      ((activeLoop env t s name acc i fuel).2.1).length ≤ fuel
  | 0, acc, i => by simp [activeLoop]
  | Nat.succ fuel, acc, i => by
    cases hg : (env i).getLB name with
    | ok lb =>
      cases hp : activePollStep t s lb with
      | noIPs =>
        have hrec := activeLoop_trace_length env t s name fuel acc (i + 1)
        rcases hl : activeLoop env t s name acc (i + 1) fuel with ⟨a, evs, b⟩
        rw [hl] at hrec
        simp only [activeLoop, hg, hp, hl]
        simpa using Nat.succ_le_succ hrec
      | deferred ing =>
        have hrec := activeLoop_trace_length env t s name fuel ing (i + 1)
        rcases hl : activeLoop env t s name ing (i + 1) fuel with ⟨a, evs, b⟩
        rw [hl] at hrec
        simp only [activeLoop, hg, hp, hl]
        simpa using Nat.succ_le_succ hrec
      | ready ing => simp [activeLoop, hg, hp]
    | notFound => simp [activeLoop, hg]
    | fault => simp [activeLoop, hg]

theorem waitLoadBalancerActive_all_pending (env : Nat → Store) (store : Store) (t : String)
    (s : List String) (name now : String)
    (h : ∀ j, ∃ lb, (env j).getLB name = .ok lb ∧ lb.statusIPs = []) :
    waitLoadBalancerActive env store t s name now =
      (.error (.timeout "timeout waiting for the LoadBalancer to become ready"), store,
        List.replicate waitLoadbalancerActiveSteps (.pollActive name)) := by
  unfold waitLoadBalancerActive
  rw [activeLoop_all_pending env t s name h waitLoadbalancerActiveSteps [] 0]

/-- C4: the activation wait is bounded: the backoff budget is exactly 19
condition runs with initial delay 1 and factor 1.2 (6/5); if status.ips is
empty at every poll, the wait performs exactly 19 polls and returns the
distinct timeout error with the store untouched; in general no wait performs
more than 19 polls; and EnsureLoadBalancer forwards the timeout as an error
(an Except.error carries no ingress status) after appending exactly the 19
poll events to the preparation trace. -/
theorem waitActive_bounded_timeout :
    (waitLoadbalancerActiveSteps = 19 ∧ waitLoadbalancerInitDelay = 1 ∧
      waitLoadbalancerFactor = 6 / 5 ∧ backoffDelay 0 = 1 ∧
      ∀ i, backoffDelay (i + 1) = backoffDelay i * (6 / 5)) ∧
    (∀ (env : Nat → Store) (store : Store) (t : String) (s : List String) (name now : String),
      (∀ j, ∃ lb, (env j).getLB name = .ok lb ∧ lb.statusIPs = []) →
      waitLoadBalancerActive env store t s name now =
        (.error (.timeout "timeout waiting for the LoadBalancer to become ready"), store,
          List.replicate waitLoadbalancerActiveSteps (.pollActive name))) ∧
    (∀ (env : Nat → Store) (store : Store) (t : String) (s : List String) (name now : String),
      ((waitLoadBalancerActive env store t s name now).2.2.count (Event.pollActive name)) ≤
        waitLoadbalancerActiveSteps) ∧
    (∀ (cfg : CloudConfig) (store : Store) (clusterName : String) (svc : Service)
        (nodes : List Node) (env : Nat → Store) (now t : String) (lb : LoadBalancer)
        (st : Store) (tr : List Event),
      ensurePrepare cfg store clusterName svc nodes = (.ok (t, lb), st, tr) →
      (∀ j, ∃ lb', (env j).getLB lb.name = .ok lb' ∧ lb'.statusIPs = []) →
      ensureLoadBalancer cfg store clusterName svc nodes env now =
        (.error (.timeout "timeout waiting for the LoadBalancer to become ready"), st,
          tr ++ List.replicate waitLoadbalancerActiveSteps (.pollActive lb.name))) := by
  refine ⟨⟨rfl, rfl, rfl, ?_, ?_⟩, ?_, ?_, ?_⟩
  · simp [backoffDelay, waitLoadbalancerInitDelay]
  · intro i
    simp [backoffDelay, waitLoadbalancerFactor, waitLoadbalancerInitDelay, pow_succ]
  · intro env store t s name now h
    exact waitLoadBalancerActive_all_pending env store t s name now h
  · intro env store t s name now
    unfold waitLoadBalancerActive
    rcases hl : activeLoop env t s name [] 0 waitLoadbalancerActiveSteps with ⟨acc, evs, b⟩
    have hlen : evs.length ≤ waitLoadbalancerActiveSteps := by
      have := activeLoop_trace_length env t s name waitLoadbalancerActiveSteps [] 0
      rw [hl] at this
      exact this
    have hcount : evs.count (Event.pollActive name) ≤ waitLoadbalancerActiveSteps :=
      le_trans (List.count_le_length _ _) hlen
    cases b
    · dsimp only
      cases hg : store.getRouting name with
      | ok r =>
        cases hu : store.updateRouting { r with
            labels := setLabel r.labels "updated" (formatTimestamp now) } with
        | ok store' =>
          simpa [hg, hu, List.count_append] using hcount
        | error e => simpa [hg, hu] using hcount
      | notFound => simpa [hg] using hcount
      | fault => simpa [hg] using hcount
    · simpa using hcount
  · intro cfg store clusterName svc nodes env now t lb st tr hprep h
    unfold ensureLoadBalancer
    rw [hprep]
    dsimp only
    rw [waitLoadBalancerActive_all_pending env st t svc.statusIngress lb.name now h]

/-- CloudConfig fixture pointing at the "net" network. -/
def cfgC4 : CloudConfig := { networkName := "net", prefixName := "" }

/-- Environment whose every snapshot is exStoreC2 (the load balancer's
status.ips stays empty forever). -/
def envC4 : Nat → Store := fun _ => exStoreC2

/-- The LoadBalancer object EnsureLoadBalancer builds for exSvc under cfgC4. -/
def exLBBuilt : LoadBalancer :=
  { name := "c-s-u",
    annotations := [("cluster-name", "c"), ("service-name", "s"),
                    ("service-namespace", "ns"), ("service-uid", "u-1")],
    spec := { lbType := "Public", ipFamilies := [], networkRefName := "net", ports := [],
              ips := [] },
    statusIPs := [] }

/-- Witness for C4: with status.ips never populated, the wait times out after
exactly 19 polls and EnsureLoadBalancer returns the timeout error. -/
theorem waitActive_bounded_timeout_witness :
    waitLoadBalancerActive envC4 exStoreC2 "" [] "c-s-u" "ts" =
      (.error (.timeout "timeout waiting for the LoadBalancer to become ready"), exStoreC2,
        List.replicate waitLoadbalancerActiveSteps (.pollActive "c-s-u")) ∧
    ensureLoadBalancer cfgC4 exStoreC2 "c" exSvc [] envC4 "ts" =
      (.error (.timeout "timeout waiting for the LoadBalancer to become ready"),
        (ensurePrepare cfgC4 exStoreC2 "c" exSvc []).2.1,
        (ensurePrepare cfgC4 exStoreC2 "c" exSvc []).2.2 ++
          List.replicate waitLoadbalancerActiveSteps (.pollActive "c-s-u")) := by
  constructor
  · exact waitActive_bounded_timeout.2.1 envC4 exStoreC2 "" [] "c-s-u" "ts"
      (fun j => ⟨exLBC2, rfl, rfl⟩)
  · exact waitActive_bounded_timeout.2.2.2 cfgC4 exStoreC2 "c" exSvc [] envC4 "ts"
      "Public" exLBBuilt (ensurePrepare cfgC4 exStoreC2 "c" exSvc []).2.1
      (ensurePrepare cfgC4 exStoreC2 "c" exSvc []).2.2 rfl
      (fun j => ⟨exLBC2, rfl, rfl⟩)

/-! Store-preservation and shape lemmas for the ensure pipeline. -/

theorem lookup_removeEntry {α : Type} :
    ∀ (m : List (String × Entry α)) (name : String),
      (removeEntry m name).lookup name = none
  | [], _ => rfl
  | (k, v) :: rest, name => by
    by_cases hk : k = name
    · subst hk
      simpa [removeEntry, List.filter_cons] using lookup_removeEntry rest k
    · have hne : (name == k) = false := by
        rw [beq_eq_false_iff_ne]
        exact fun hEq => hk hEq.symm
      have hkeep : ((k, v).1 != name) = true := by
        simpa [bne] using hk
      simpa [removeEntry, List.filter_cons, hkeep, List.lookup, hne]
        using lookup_removeEntry rest name

theorem waitDeletedLoop_notFound (store : Store) (name : String) (n : Nat)
    (h : store.getLB name = .notFound) :
    waitDeletedLoop store name (n + 1) = (.ok (), [.pollDeleted name true]) := by
  simp [waitDeletedLoop, h]

/-- EnsureLoadBalancerDeleted on a present load balancer removes it and the
single deletion-wait poll confirms it gone. -/
theorem ensureDeleted_present (store : Store) (clusterName : String) (svc : Service)
    (lbPre : LoadBalancer)
    (h : store.getLB (getLoadBalancerNameForService clusterName svc) = .ok lbPre) :
    ensureLoadBalancerDeleted store clusterName svc =
      (.ok (),
        { store with loadBalancers :=
            removeEntry store.loadBalancers (getLoadBalancerNameForService clusterName svc) },
        [.deleteIssued (getLoadBalancerNameForService clusterName svc),
         .pollDeleted (getLoadBalancerNameForService clusterName svc) true]) := by
  have hnf : Store.getLB
      { store with loadBalancers :=
          removeEntry store.loadBalancers (getLoadBalancerNameForService clusterName svc) }
      (getLoadBalancerNameForService clusterName svc) = .notFound := by
    simp [Store.getLB, getFrom, lookup_removeEntry]
  have hwait : waitForDeletingLoadBalancer
      { store with loadBalancers :=
          removeEntry store.loadBalancers (getLoadBalancerNameForService clusterName svc) }
      (getLoadBalancerNameForService clusterName svc) =
      (.ok (), [.pollDeleted (getLoadBalancerNameForService clusterName svc) true]) := by
    unfold waitForDeletingLoadBalancer
    have h19 : waitLoadbalancerActiveSteps = 18 + 1 := rfl
    rw [h19, waitDeletedLoop_notFound _ _ _ hnf]
  unfold ensureLoadBalancerDeleted
  dsimp only
  rw [h, hwait]

theorem ensureDeleted_preserves (store : Store) (clusterName : String) (svc : Service) :
    ((ensureLoadBalancerDeleted store clusterName svc).2.1).networks = store.networks ∧
    ((ensureLoadBalancerDeleted store clusterName svc).2.1).machines = store.machines ∧
    ((ensureLoadBalancerDeleted store clusterName svc).2.1).networkInterfaces =
      store.networkInterfaces ∧
    ((ensureLoadBalancerDeleted store clusterName svc).2.1).routings = store.routings := by
  unfold ensureLoadBalancerDeleted
  dsimp only
  split
  · exact ⟨rfl, rfl, rfl, rfl⟩
  · exact ⟨rfl, rfl, rfl, rfl⟩
  · rcases hw : waitForDeletingLoadBalancer _ _ with ⟨r, evs⟩
    simp [hw]

theorem applyLoadBalancer_networks (s : Store) (lb : LoadBalancer) (s' : Store)
    (h : s.applyLoadBalancer lb = .ok s') :
    s'.networks = s.networks ∧ s'.machines = s.machines ∧
    s'.networkInterfaces = s.networkInterfaces ∧ s'.routings = s.routings := by
  unfold Store.applyLoadBalancer at h
  split at h
  · injection h with h2; subst h2; exact ⟨rfl, rfl, rfl, rfl⟩
  · injection h with h2; subst h2; exact ⟨rfl, rfl, rfl, rfl⟩
  · cases h

theorem applyLoadBalancer_getLB (s : Store) (lb : LoadBalancer) (s' : Store)
    (h : s.applyLoadBalancer lb = .ok s') :
    ∃ ips, s'.getLB lb.name = .ok { lb with statusIPs := ips } := by
  unfold Store.applyLoadBalancer at h
  split at h
  · next old heq =>
    injection h with h2
    subst h2
    have hsome : (s.loadBalancers.lookup lb.name).isSome := by
      rw [getFrom_lookup_some heq]; rfl
    exact ⟨old.statusIPs, by simp [Store.getLB, getFrom, lookup_replaceEntry _ _ _ hsome]⟩
  · injection h with h2
    subst h2
    exact ⟨lb.statusIPs, by simp [Store.getLB, getFrom, List.lookup]⟩
  · cases h

theorem applyRouting_preserves (s : Store) (r : LoadBalancerRouting) (s' : Store)
    (h : s.applyRouting r = .ok s') :
    s'.loadBalancers = s.loadBalancers ∧ s'.networks = s.networks := by
  unfold Store.applyRouting at h
  split at h
  · injection h with h2; subst h2; exact ⟨rfl, rfl⟩
  · injection h with h2; subst h2; exact ⟨rfl, rfl⟩
  · cases h

theorem updateRouting_preserves (s : Store) (r : LoadBalancerRouting) (s' : Store)
    (h : s.updateRouting r = .ok s') :
    s'.loadBalancers = s.loadBalancers ∧ s'.networks = s.networks := by
  unfold Store.updateRouting at h
  split at h
  · injection h with h2; subst h2; exact ⟨rfl, rfl⟩
  · cases h
  · cases h

theorem routingApplyFn_preserves (store : Store) (lb : LoadBalancer) (nodes : List Node) :
    ((applyLoadBalancerRoutingForLoadBalancer store lb nodes).2.1).loadBalancers =
      store.loadBalancers ∧
    ((applyLoadBalancerRoutingForLoadBalancer store lb nodes).2.1).networks =
      store.networks := by
  unfold applyLoadBalancerRoutingForLoadBalancer
  split
  · exact ⟨rfl, rfl⟩
  · dsimp only
    split
    · split
      · next store2 happly => simpa using applyRouting_preserves _ _ _ happly
      · exact ⟨rfl, rfl⟩
    · exact ⟨rfl, rfl⟩
    · exact ⟨rfl, rfl⟩

theorem waitActive_preserves_lbs (env : Nat → Store) (store : Store) (t : String)
    (s : List String) (name now : String) :
    ((waitLoadBalancerActive env store t s name now).2.1).loadBalancers =
      store.loadBalancers := by
  unfold waitLoadBalancerActive
  rcases hl : activeLoop env t s name [] 0 waitLoadbalancerActiveSteps with ⟨acc, evs, b⟩
  cases b
  · dsimp only
    cases hg : store.getRouting name with
    | ok r =>
      cases hu : store.updateRouting { r with
          labels := setLabel r.labels "updated" (formatTimestamp now) } with
      | ok store' =>
        simpa [hg, hu] using (updateRouting_preserves _ _ _ hu).1
      | error e => simp [hg, hu]
    | notFound => simp [hg]
    | fault => simp [hg]
  · rfl

theorem getLB_congr_field {s s' : Store} (h : s'.loadBalancers = s.loadBalancers)
    (name : String) : s'.getLB name = s.getLB name := by
  unfold Store.getLB
  rw [h]

theorem buildLoadBalancer_ok_fields (cfg : CloudConfig) (clusterName : String)
    (svc : Service) (desiredType nm : String) (lb : LoadBalancer)
    (h : buildLoadBalancer cfg clusterName svc desiredType nm = .ok lb) :
    lb.name = nm ∧ lb.spec.lbType = desiredType ∧
    lb.spec.networkRefName = cfg.networkName := by
  unfold buildLoadBalancer at h
  dsimp only at h
  split at h
  · split at h
    · cases h
    · injection h with h2
      subst h2
      exact ⟨rfl, rfl, rfl⟩
  · injection h with h2
    subst h2
    exact ⟨rfl, rfl, rfl⟩

theorem ensureApplyPhase_ok_shape (cfg : CloudConfig) (s1 : Store) (clusterName : String)
    (svc : Service) (nodes : List Node) (et : String) (evs1 : List Event) (t : String)
    (lb : LoadBalancer) (st : Store) (tr : List Event)
    (h : ensureApplyPhase cfg s1 clusterName svc nodes et evs1 = (.ok (t, lb), st, tr)) :
    t = et ∧
    buildLoadBalancer cfg clusterName svc (desiredLoadBalancerTypeFor svc)
      (getLoadBalancerNameForService clusterName svc) = .ok lb ∧
    ∃ s2, s1.applyLoadBalancer lb = .ok s2 ∧
      ∃ dests evr,
        applyLoadBalancerRoutingForLoadBalancer s2 lb nodes = (.ok dests, st, evr) ∧
        tr = evs1 ++ (.applyLB (getLoadBalancerNameForService clusterName svc)
          (desiredLoadBalancerTypeFor svc) :: evr) := by
  unfold ensureApplyPhase at h
  split at h
  · simp at h
  · next lb0 heqb =>
    split at h
    · simp at h
    · next s2 heqa =>
      split at h
      · next x s3 evr heqr =>
        simp only [Prod.mk.injEq, Except.ok.injEq] at h
        obtain ⟨⟨ht, hlb⟩, hst, htr⟩ := h
        subst hlb
        subst hst
        exact ⟨ht.symm, heqb, s2, heqa, x, evr, heqr, htr.symm⟩
      · simp at h

theorem ensureApplyPhase_trace (cfg : CloudConfig) (s1 : Store) (clusterName : String)
    (svc : Service) (nodes : List Node) (et : String) (evs1 : List Event) :
    ∃ suffix, (ensureApplyPhase cfg s1 clusterName svc nodes et evs1).2.2 =
      evs1 ++ suffix := by
  unfold ensureApplyPhase
  split
  · exact ⟨[], by simp⟩
  · split
    · exact ⟨[], by simp⟩
    · split
      · exact ⟨_, rfl⟩
      · exact ⟨_, rfl⟩

theorem ensureApplyPhase_post_type (cfg : CloudConfig) (s1 : Store) (clusterName : String)
    (svc : Service) (nodes : List Node) (et : String) (evs1 : List Event)
    (lbPre lbPost : LoadBalancer)
    (hpre : s1.getLB (getLoadBalancerNameForService clusterName svc) = .ok lbPre)
    (hpost : ((ensureApplyPhase cfg s1 clusterName svc nodes et evs1).2.1).getLB
        (getLoadBalancerNameForService clusterName svc) = .ok lbPost) :
    lbPost.spec.lbType = desiredLoadBalancerTypeFor svc ∨ lbPost = lbPre := by
  unfold ensureApplyPhase at hpost
  split at hpost
  · right
    rw [hpre] at hpost
    injection hpost with h2
    exact h2.symm
  · next lb0 heqb =>
    obtain ⟨hname, htype, _⟩ := buildLoadBalancer_ok_fields _ _ _ _ _ _ heqb
    split at hpost
    · right
      rw [hpre] at hpost
      injection hpost with h2
      exact h2.symm
    · next s2 heqa =>
      obtain ⟨ips0, hs2⟩ := applyLoadBalancer_getLB _ _ _ heqa
      rw [hname] at hs2
      split at hpost
      · next x s3 evr heqr =>
        have hlbs : s3.loadBalancers = s2.loadBalancers := by
          simpa [heqr] using (routingApplyFn_preserves s2 lb0 nodes).1
        dsimp only at hpost
        rw [getLB_congr_field hlbs, hs2] at hpost
        injection hpost with h2
        left
        rw [← h2]
        exact htype
      · next e s3 evr heqr =>
        have hlbs : s3.loadBalancers = s2.loadBalancers := by
          simpa [heqr] using (routingApplyFn_preserves s2 lb0 nodes).1
        dsimp only at hpost
        rw [getLB_congr_field hlbs, hs2] at hpost
        injection hpost with h2
        left
        rw [← h2]
        exact htype

theorem ensurePrepare_mismatch_shape (cfg : CloudConfig) (store : Store)
    (clusterName : String) (svc : Service) (nodes : List Node) (lbPre : LoadBalancer)
    (hpre : store.getLB (getLoadBalancerNameForService clusterName svc) = .ok lbPre)
    (hm : lbPre.spec.lbType ≠ desiredLoadBalancerTypeFor svc) :
    ensurePrepare cfg store clusterName svc nodes =
      ensureApplyPhase cfg
        { store with loadBalancers :=
            removeEntry store.loadBalancers (getLoadBalancerNameForService clusterName svc) }
        clusterName svc nodes lbPre.spec.lbType
        [.getLB (getLoadBalancerNameForService clusterName svc),
         .deleteIssued (getLoadBalancerNameForService clusterName svc),
         .pollDeleted (getLoadBalancerNameForService clusterName svc) true] := by
  unfold ensurePrepare
  simp only [hpre, if_pos hm, ensureDeleted_present store clusterName svc lbPre hpre]

theorem ensurePrepare_same_shape (cfg : CloudConfig) (store : Store) (clusterName : String)
    (svc : Service) (nodes : List Node) (lbPre : LoadBalancer)
    (hpre : store.getLB (getLoadBalancerNameForService clusterName svc) = .ok lbPre)
    (hs : lbPre.spec.lbType = desiredLoadBalancerTypeFor svc) :
    ensurePrepare cfg store clusterName svc nodes =
      ensureApplyPhase cfg store clusterName svc nodes lbPre.spec.lbType
        [.getLB (getLoadBalancerNameForService clusterName svc)] := by
  unfold ensurePrepare
  simp only [hpre, if_neg (show ¬ lbPre.spec.lbType ≠ desiredLoadBalancerTypeFor svc from
    fun hne => hne hs)]

theorem ensure_trace_prefix (cfg : CloudConfig) (store : Store) (clusterName : String)
    (svc : Service) (nodes : List Node) (env : Nat → Store) (now : String) :
    ∃ suffix, (ensureLoadBalancer cfg store clusterName svc nodes env now).2.2 =
      (ensurePrepare cfg store clusterName svc nodes).2.2 ++ suffix := by
  unfold ensureLoadBalancer
  rcases hp : ensurePrepare cfg store clusterName svc nodes with ⟨pres, pst, ptr⟩
  cases pres with
  | error e => exact ⟨[], by simp⟩
  | ok val =>
    rcases val with ⟨t, lb⟩
    rcases hw : waitLoadBalancerActive env pst t svc.statusIngress lb.name now with ⟨r, s', evw⟩
    exact ⟨evw, by simp [hw]⟩

theorem ensure_post_lbs (cfg : CloudConfig) (store : Store) (clusterName : String)
    (svc : Service) (nodes : List Node) (env : Nat → Store) (now : String) :
    ((ensureLoadBalancer cfg store clusterName svc nodes env now).2.1).loadBalancers =
      ((ensurePrepare cfg store clusterName svc nodes).2.1).loadBalancers := by
  unfold ensureLoadBalancer
  rcases hp : ensurePrepare cfg store clusterName svc nodes with ⟨pres, pst, ptr⟩
  cases pres with
  | error e => rfl
  | ok val =>
    rcases val with ⟨t, lb⟩
    rcases hw : waitLoadBalancerActive env pst t svc.statusIngress lb.name now with ⟨r, s', evw⟩
    have := waitActive_preserves_lbs env pst t svc.statusIngress lb.name now
    rw [hw] at this
    simpa [hw] using this

/-- C1: on a reconcile whose stored load balancer has a type different from
the desired one, the trace of EnsureLoadBalancer starts with the existence
check, then the issued deletion, then the poll observing the object gone, and
any apply of the new spec happens strictly after those; moreover a stored
load balancer's spec type is never mutated in place: whenever a load balancer
exists before and after a reconcile that never issued a deletion, its spec
type is unchanged. -/
theorem ensure_type_mismatch_delete_before_apply :
    (∀ (cfg : CloudConfig) (store : Store) (clusterName : String) (svc : Service)
        (nodes : List Node) (env : Nat → Store) (now : String) (lbPre : LoadBalancer),
      store.getLB (getLoadBalancerNameForService clusterName svc) = .ok lbPre →
      lbPre.spec.lbType ≠ desiredLoadBalancerTypeFor svc →
      ∃ rest,
        (ensureLoadBalancer cfg store clusterName svc nodes env now).2.2 =
          .getLB (getLoadBalancerNameForService clusterName svc) ::
          .deleteIssued (getLoadBalancerNameForService clusterName svc) ::
          .pollDeleted (getLoadBalancerNameForService clusterName svc) true :: rest ∧
        (∀ (i : Nat) (ty : String),
          ((ensureLoadBalancer cfg store clusterName svc nodes env now).2.2).get? i =
            some (.applyLB (getLoadBalancerNameForService clusterName svc) ty) → 2 < i)) ∧
    (∀ (cfg : CloudConfig) (store : Store) (clusterName : String) (svc : Service)
        (nodes : List Node) (env : Nat → Store) (now : String) (lbPre lbPost : LoadBalancer)
        (res : Except Err (List String)) (st : Store) (tr : List Event),
      ensureLoadBalancer cfg store clusterName svc nodes env now = (res, st, tr) →
      store.getLB (getLoadBalancerNameForService clusterName svc) = .ok lbPre →
      st.getLB (getLoadBalancerNameForService clusterName svc) = .ok lbPost →
      Event.deleteIssued (getLoadBalancerNameForService clusterName svc) ∉ tr →
      lbPost.spec.lbType = lbPre.spec.lbType) := by
  constructor
  · intro cfg store clusterName svc nodes env now lbPre hpre hm
    have hms := ensurePrepare_mismatch_shape cfg store clusterName svc nodes lbPre hpre hm
    rcases ensureApplyPhase_trace cfg
      { store with loadBalancers :=
          removeEntry store.loadBalancers (getLoadBalancerNameForService clusterName svc) }
      clusterName svc nodes lbPre.spec.lbType
      [.getLB (getLoadBalancerNameForService clusterName svc),
       .deleteIssued (getLoadBalancerNameForService clusterName svc),
       .pollDeleted (getLoadBalancerNameForService clusterName svc) true]
      with ⟨suffix, hphtr⟩
    have hptr : (ensurePrepare cfg store clusterName svc nodes).2.2 =
        .getLB (getLoadBalancerNameForService clusterName svc) ::
        .deleteIssued (getLoadBalancerNameForService clusterName svc) ::
        .pollDeleted (getLoadBalancerNameForService clusterName svc) true :: suffix := by
      rw [hms, hphtr]
      simp
    rcases ensure_trace_prefix cfg store clusterName svc nodes env now with ⟨suf2, htr⟩
    rw [hptr] at htr
    refine ⟨suffix ++ suf2, ?_, ?_⟩
    · rw [htr]
      simp
    · intro i ty hi
      rw [htr] at hi
      rcases i with _ | _ | _ | n
      · simp [List.get?] at hi
      · simp [List.get?] at hi
      · simp [List.get?] at hi
      · omega
  · intro cfg store clusterName svc nodes env now lbPre lbPost res st tr hrun hpre hpost hnodel
    by_cases hm : lbPre.spec.lbType ≠ desiredLoadBalancerTypeFor svc
    · exfalso
      apply hnodel
      have h22 : (ensureLoadBalancer cfg store clusterName svc nodes env now).2.2 = tr := by
        rw [hrun]
      have hms := ensurePrepare_mismatch_shape cfg store clusterName svc nodes lbPre hpre hm
      rcases ensureApplyPhase_trace cfg
        { store with loadBalancers :=
            removeEntry store.loadBalancers (getLoadBalancerNameForService clusterName svc) }
        clusterName svc nodes lbPre.spec.lbType
        [.getLB (getLoadBalancerNameForService clusterName svc),
         .deleteIssued (getLoadBalancerNameForService clusterName svc),
         .pollDeleted (getLoadBalancerNameForService clusterName svc) true]
        with ⟨suffix, hphtr⟩
      rcases ensure_trace_prefix cfg store clusterName svc nodes env now with ⟨suf2, htr⟩
      rw [h22, hms, hphtr] at htr
      rw [htr]
      simp
    · push_neg at hm
      have hss := ensurePrepare_same_shape cfg store clusterName svc nodes lbPre hpre hm
      have hplbs := ensure_post_lbs cfg store clusterName svc nodes env now
      have h21 : (ensureLoadBalancer cfg store clusterName svc nodes env now).2.1 = st := by
        rw [hrun]
      have hfield : st.loadBalancers =
          ((ensureApplyPhase cfg store clusterName svc nodes lbPre.spec.lbType
            [.getLB (getLoadBalancerNameForService clusterName svc)]).2.1).loadBalancers := by
        rw [← h21, hplbs, hss]
      rw [getLB_congr_field hfield] at hpost
      rcases ensureApplyPhase_post_type cfg store clusterName svc nodes lbPre.spec.lbType
        [.getLB (getLoadBalancerNameForService clusterName svc)] lbPre lbPost hpre hpost
        with h | h
      · rw [h, ← hm]
      · rw [h]

/-- Witness for C1 (the in-place part, at a same-type reconcile): the stored
type stays "Public". -/
theorem ensure_type_mismatch_witness :
    exLBBuilt.spec.lbType = exLBC2.spec.lbType :=
  ensure_type_mismatch_delete_before_apply.2 cfgC4 exStoreC2 "c" exSvc [] envC4 "ts"
    exLBC2 exLBBuilt ((ensureLoadBalancer cfgC4 exStoreC2 "c" exSvc [] envC4 "ts").1)
    ((ensureLoadBalancer cfgC4 exStoreC2 "c" exSvc [] envC4 "ts").2.1)
    ((ensureLoadBalancer cfgC4 exStoreC2 "c" exSvc [] envC4 "ts").2.2)
    rfl rfl rfl (by decide)

/-! Routing/network shape lemmas. -/

theorem routingApply_ok_shape (store : Store) (lb : LoadBalancer) (nodes : List Node)
    (dests : List LocalUIDReference) (st : Store) (evs : List Event)
    (h : applyLoadBalancerRoutingForLoadBalancer store lb nodes = (.ok dests, st, evs)) :
    ∃ nw lbls, store.getNetwork lb.spec.networkRefName = .ok nw ∧
      st.getRouting lb.name =
        .ok { name := lb.name, networkRef := ⟨nw.name, nw.uid⟩, destinations := dests,
              ownerName := lb.name, labels := lbls } := by
  unfold applyLoadBalancerRoutingForLoadBalancer at h
  split at h
  · simp at h
  · next nics heq =>
    dsimp only at h
    split at h
    · next nw heqnw =>
      split at h
      · next store2 happly =>
        simp only [Prod.mk.injEq, Except.ok.injEq] at h
        obtain ⟨h1, h2, _⟩ := h
        rcases getRouting_applyRouting _ _ _ happly with ⟨lbls, hst⟩
        refine ⟨nw, lbls, heqnw, ?_⟩
        rw [← h2, ← h1]
        exact hst
      · simp at h
    · simp at h
    · simp at h

theorem waitActive_getRouting (env : Nat → Store) (store : Store) (t : String)
    (s : List String) (name now : String) (r : LoadBalancerRouting)
    (hg : store.getRouting name = .ok r) (hn : r.name = name) :
    ((waitLoadBalancerActive env store t s name now).2.1).getRouting name = .ok r ∨
    ((waitLoadBalancerActive env store t s name now).2.1).getRouting name =
      .ok { r with labels := setLabel r.labels "updated" (formatTimestamp now) } := by
  subst hn
  unfold waitLoadBalancerActive
  rcases hl : activeLoop env t s r.name [] 0 waitLoadbalancerActiveSteps with ⟨acc, evs, b⟩
  cases b with
  | true => exact Or.inl hg
  | false =>
    dsimp only
    rw [hg]
    cases hu : store.updateRouting { r with
        labels := setLabel r.labels "updated" (formatTimestamp now) } with
    | ok store' =>
      right
      have hres := getRouting_updateRouting _ _ _ hu
      simpa [hu] using hres
    | error e =>
      left
      simp [hu, hg]

theorem ensurePrepare_ok_phase (cfg : CloudConfig) (store : Store) (clusterName : String)
    (svc : Service) (nodes : List Node) (t : String) (lb : LoadBalancer) (pst : Store)
    (ptr : List Event)
    (h : ensurePrepare cfg store clusterName svc nodes = (.ok (t, lb), pst, ptr)) :
    ∃ s1 et evs1, s1.networks = store.networks ∧
      ensureApplyPhase cfg s1 clusterName svc nodes et evs1 = (.ok (t, lb), pst, ptr) := by
  unfold ensurePrepare at h
  dsimp only at h
  split at h
  · next lb0 heq =>
    split at h
    · split at h
      · next u s evs hdel =>
        refine ⟨s, lb0.spec.lbType,
          .getLB (getLoadBalancerNameForService clusterName svc) :: evs, ?_, h⟩
        have := (ensureDeleted_preserves store clusterName svc).1
        rw [hdel] at this
        exact this
      · simp at h
    · exact ⟨store, lb0.spec.lbType,
        [.getLB (getLoadBalancerNameForService clusterName svc)], rfl, h⟩
  · exact ⟨store, "", [.getLB (getLoadBalancerNameForService clusterName svc)], rfl, h⟩
  · exact ⟨store, "", [.getLB (getLoadBalancerNameForService clusterName svc)], rfl, h⟩

/-- C10: the routing write fetches the Network named by the load balancer's
network reference and aborts (leaving the store untouched) if that fetch does
not succeed; when the routing write succeeds, the stored routing object
carries the name and UID of the Network that existed at apply time; and every
successful EnsureLoadBalancer leaves a routing object whose networkRef names
the Network that existed in the pre-reconcile store. -/
theorem routing_requires_network :
    (∀ (store : Store) (lb : LoadBalancer) (nodes : List Node),
      (∀ nw, store.getNetwork lb.spec.networkRefName ≠ .ok nw) →
      (∃ e, (applyLoadBalancerRoutingForLoadBalancer store lb nodes).1 = .error e) ∧
      (applyLoadBalancerRoutingForLoadBalancer store lb nodes).2.1 = store) ∧
    (∀ (store : Store) (lb : LoadBalancer) (nodes : List Node)
        (dests : List LocalUIDReference) (st : Store) (evs : List Event),
      applyLoadBalancerRoutingForLoadBalancer store lb nodes = (.ok dests, st, evs) →
      ∃ nw r, store.getNetwork lb.spec.networkRefName = .ok nw ∧
        st.getRouting lb.name = .ok r ∧ r.networkRef = ⟨nw.name, nw.uid⟩) ∧
    (∀ (cfg : CloudConfig) (store : Store) (clusterName : String) (svc : Service)
        (nodes : List Node) (env : Nat → Store) (now : String) (ips : List String)
        (st : Store) (tr : List Event),
      ensureLoadBalancer cfg store clusterName svc nodes env now = (.ok ips, st, tr) →
      ∃ nw r, store.getNetwork cfg.networkName = .ok nw ∧
        st.getRouting (getLoadBalancerNameForService clusterName svc) = .ok r ∧
        r.networkRef = ⟨nw.name, nw.uid⟩) := by
  refine ⟨?_, ?_, ?_⟩
  · intro store lb nodes hno
    unfold applyLoadBalancerRoutingForLoadBalancer
    split
    · next e heq => exact ⟨⟨e, rfl⟩, rfl⟩
    · next nics heq =>
      dsimp only
      cases hnw : store.getNetwork lb.spec.networkRefName with
      | ok nw => exact absurd hnw (hno nw)
      | notFound =>
        exact ⟨⟨.fetch "failed to get Network", by simp [hnw]⟩, by simp [hnw]⟩
      | fault =>
        exact ⟨⟨.fetch "failed to get Network", by simp [hnw]⟩, by simp [hnw]⟩
  · intro store lb nodes dests st evs h
    rcases routingApply_ok_shape store lb nodes dests st evs h with ⟨nw, lbls, hnw, hst⟩
    exact ⟨nw, _, hnw, hst, rfl⟩
  · intro cfg store clusterName svc nodes env now ips st tr hrun
    unfold ensureLoadBalancer at hrun
    rcases hp : ensurePrepare cfg store clusterName svc nodes with ⟨pres, pst, ptr⟩
    rw [hp] at hrun
    cases pres with
    | error e => simp at hrun
    | ok val =>
      rcases val with ⟨t, lb⟩
      dsimp only at hrun
      rcases hw : waitLoadBalancerActive env pst t svc.statusIngress lb.name now
        with ⟨wres, wst, wevs⟩
      rw [hw] at hrun
      simp only [Prod.mk.injEq] at hrun
      obtain ⟨_, hst2, _⟩ := hrun
      rcases ensurePrepare_ok_phase cfg store clusterName svc nodes t lb pst ptr hp
        with ⟨s1, et, evs1, hnet1, hphase⟩
      rcases ensureApplyPhase_ok_shape cfg s1 clusterName svc nodes et evs1 t lb pst ptr
        hphase with ⟨_, hbuild, s2, happly, dests, evr, hrouting, _⟩
      obtain ⟨hname, _, hnet⟩ := buildLoadBalancer_ok_fields _ _ _ _ _ _ hbuild
      rcases routingApply_ok_shape s2 lb nodes dests pst evr hrouting
        with ⟨nw, lbls, hnw, hpstr⟩
      have hs2net : s2.networks = store.networks := by
        rw [(applyLoadBalancer_networks _ _ _ happly).1, hnet1]
      have hstore_nw : store.getNetwork cfg.networkName = .ok nw := by
        have htrans : s2.getNetwork lb.spec.networkRefName =
            store.getNetwork lb.spec.networkRefName := by
          unfold Store.getNetwork
          rw [hs2net]
        rw [htrans, hnet] at hnw
        exact hnw
      have h' := waitActive_getRouting env pst t svc.statusIngress lb.name now _ hpstr rfl
      rw [hw] at h'
      dsimp only at h'
      rcases h' with h' | h'
      · exact ⟨nw, _, hstore_nw, by rw [← hst2, ← hname]; exact h', rfl⟩
      · exact ⟨nw, _, hstore_nw, by rw [← hst2, ← hname]; exact h', rfl⟩

/-- Witness for C10: a missing Network aborts the routing write and leaves
the store untouched; a successful routing write stores the Network's name
and UID. -/
theorem routing_requires_network_witness :
    ((∃ e, (applyLoadBalancerRoutingForLoadBalancer exStoreC3 exLBC2 []).1 = .error e) ∧
      (applyLoadBalancerRoutingForLoadBalancer exStoreC3 exLBC2 []).2.1 = exStoreC3) ∧
    (∃ nw r, exStoreC2.getNetwork exLBC2.spec.networkRefName = .ok nw ∧
      (applyLoadBalancerRoutingForLoadBalancer exStoreC2 exLBC2 []).2.1.getRouting
        exLBC2.name = .ok r ∧ r.networkRef = ⟨nw.name, nw.uid⟩) := by
  constructor
  · exact routing_requires_network.1 exStoreC3 exLBC2 []
      (by intro nw h; simp [Store.getNetwork, getFrom, exStoreC3] at h)
  · exact routing_requires_network.2.1 exStoreC2 exLBC2 [] []
      ((applyLoadBalancerRoutingForLoadBalancer exStoreC2 exLBC2 []).2.1)
      ((applyLoadBalancerRoutingForLoadBalancer exStoreC2 exLBC2 []).2.2) rfl
